import Mathlib

/-!
Verification of the hierarchical storage manager of `streamlit_app.py`.

The filesystem is modelled as a list of entries.  A path is a list of name
components (each a list of characters), taken relative to the process working
directory, so the storage root `file_storage` is the one-component path
`[storageName]`.  Python/OS behaviour is embedded as follows: `pathlib`'s `/`
joins without normalising, while every OS-level call (`exists`, `rename`,
`mkdir`, `iterdir`, ...) resolves `.` and `..` lexically via `osResolve`
(symbolic links in intermediate positions are not modelled; an entry of kind
`other` stands for a directory entry that is neither a directory nor a regular
file after following its own link, e.g. a broken symlink).  The model assumes
the parent directory of a normalized mutation target exists, which holds at
every input considered here.  Character-level helpers mirror Python's ASCII
behaviour of `str.strip`, `str.lower` and `str` comparison; non-ASCII case
folding is not exercised by any input below.
-/

/-- One path component, or a raw user-supplied name, as its characters. -/
abbrev Name := List Char

/-- A filesystem path as a list of components. -/
abbrev FsPath := List Name

/-- Characters stripped by Python's `str.strip()` (ASCII whitespace). -/
def isSpaceChar (c : Char) : Bool :=
  c == ' ' || c == '\t' || c == '\n' || c == '\r' || c == '\x0b' || c == '\x0c'

/-- Python's `str.strip()`: drop whitespace from both ends. -/
def pyStrip (s : Name) : Name :=
  ((s.dropWhile isSpaceChar).reverse.dropWhile isSpaceChar).reverse

/-- ASCII lowercasing of one character, as Python's `str.lower()` does on ASCII. -/
def lowerChar (c : Char) : Char :=
  if 'A' ≤ c && c ≤ 'Z' then Char.ofNat (c.toNat + 32) else c

/-- Python's `str.lower()` (ASCII fragment). -/
def pyLower (s : Name) : Name := s.map lowerChar

/-- Lexicographic comparison of names by code point, as Python compares `str`. -/
def lexLe : Name → Name → Bool
  | [], _ => true
  | _ :: _, [] => false
  | a :: as, b :: bs =>
    if a.toNat < b.toNat then true
    else if b.toNat < a.toNat then false
    else lexLe as bs

/-- Split a raw name on the path separator, accumulator-style. -/
def splitSlashGo : List Char → List Char → List (List Char)
  | [], acc => [acc.reverse]
  | c :: rest, acc =>
    if decide (c = '/') then acc.reverse :: splitSlashGo rest []
    else splitSlashGo rest (c :: acc)

/-- Components of a raw name: split on `/` and drop empty pieces,
as `pathlib` parses a string operand of `/`. -/
def splitName (s : Name) : List Name := (splitSlashGo s []).filter (fun t => decide (t ≠ []))

/-- Whether a raw name is an absolute path (leading separator). -/
def isAbsName : Name → Bool
  | [] => false
  | c :: _ => decide (c = '/')

/-- The `pathlib` join `base / s`: an absolute right operand replaces the base;
otherwise the components of `s` are appended without normalisation. -/
def pathJoin (base : FsPath) (s : Name) : FsPath :=
  if isAbsName s then splitName s else base ++ splitName s

/-- The component `.` -/
def dotName : Name := ['.']

/-- The component `..` -/
def dotdotName : Name := ['.', '.']

/-- One step of lexical path resolution. -/
def normStep (acc : FsPath) (c : Name) : FsPath :=
  if c = dotName then acc
  else if c = dotdotName then acc.dropLast
  else acc ++ [c]

/-- Lexical resolution of `.` and `..`, as the OS resolves a path it is handed. -/
def osResolve (p : FsPath) : FsPath := p.foldl normStep []

/-- Boolean component-wise prefix test: `isUnder r p` holds when `r` is a
prefix of `p`, i.e. `p` is `r` itself or lies beneath it. -/
def isUnder : FsPath → FsPath → Bool
  | [], _ => true
  | _ :: _, [] => false
  | a :: as, b :: bs => decide (a = b) && isUnder as bs

/-- What a directory entry is after following its own link:
a directory, a regular file, or neither (e.g. a broken symlink). -/
inductive EntryKind
  | dir
  | file
  | other

deriving instance DecidableEq for EntryKind

/-- A filesystem entry: its (normalized) path, its kind, and, for regular
files, its byte content. -/
structure Entry where
  path : FsPath
  kind : EntryKind
  content : List Nat

deriving instance DecidableEq for Entry

/-- The filesystem state: the entries that currently exist.  The list order is
the (otherwise unspecified) enumeration order of `iterdir`/`rglob`. -/
abbrev FS := List Entry

/-- The storage root component `file_storage`. -/
def storageName : Name := "file_storage".data

/-- Model of `STORAGE_DIR`: the storage root path. -/
def STORAGE_DIR : FsPath := [storageName]

/-- Model of `Path.exists()`: the OS resolves the path and looks it up. -/
def existsAt (fs : FS) (p : FsPath) : Bool :=
  fs.any (fun e => decide (e.path = osResolve p))

/-- Model of `Path.is_dir()` at an OS-resolved path. -/
def isDirAt (fs : FS) (p : FsPath) : Bool :=
  fs.any (fun e => decide (e.path = osResolve p) && decide (e.kind = EntryKind.dir))

/-- Read a regular file's bytes, `none` when no such file exists. -/
def readFile (fs : FS) (p : FsPath) : Option (List Nat) :=
  match fs.find? (fun e => decide (e.path = osResolve p) && decide (e.kind = EntryKind.file)) with
  | some e => some e.content
  | none => none

/-- Model of `os.rename(old, new)`: the entry at `old` and everything beneath it move to
the corresponding path beneath `new`; other entries are untouched. -/
def fsRename (fs : FS) (oldRaw newRaw : FsPath) : FS :=
  let o := osResolve oldRaw
  let n := osResolve newRaw
  fs.map (fun e =>
    if isUnder o e.path then ⟨n ++ e.path.drop o.length, e.kind, e.content⟩ else e)

/-- Model of `open(p, "wb")` followed by writing `c`: replace the entry at `p` if one
exists, otherwise create a new regular file at the resolved path. -/
def writeFile (fs : FS) (p : FsPath) (c : List Nat) : FS :=
  let np := osResolve p
  if fs.any (fun e => decide (e.path = np)) then
    fs.map (fun e => if e.path = np then ⟨np, EntryKind.file, c⟩ else e)
  else fs ++ [⟨np, EntryKind.file, c⟩]

/-- Outcome of `handle_rename` (src lines 46-60). -/
inductive RenameOutcome
  /-- Outcome `st.warning("Name cannot be empty.")`; no mutation. -/
  | warnedEmpty
  /-- Outcome `st.error("... already exists ...")`; no mutation. -/
  | errorExists
  /-- the rename went through and `st.rerun()` was reached. -/
  | renamed (newPath : FsPath)
  /-- Outcome where `old_path.rename` raised; caught and shown by the `except` branch. -/
  | errorRaised

deriving instance DecidableEq for RenameOutcome

/-- Model of `handle_rename(old_path, new_name)` (src lines 46-60): reject a name that
is empty after stripping, reject an existing target, otherwise rename. -/
def handle_rename (fs : FS) (old_path : FsPath) (new_name : Name) : RenameOutcome × FS :=
  let stripped := pyStrip new_name
  if stripped = [] then (RenameOutcome.warnedEmpty, fs)
  else
    let new_path := pathJoin old_path.dropLast stripped
    if existsAt fs new_path then (RenameOutcome.errorExists, fs)
    else if existsAt fs old_path then
      (RenameOutcome.renamed (osResolve new_path), fsRename fs old_path new_path)
    else (RenameOutcome.errorRaised, fs)

/-- Outcome of the create-folder form (src lines 100-111). -/
inductive CreateOutcome
  /-- Outcome where `if submitted and folder_name:` was false: nothing happens, nothing is shown. -/
  | ignored
  /-- Outcome `st.error` for an existing folder; no mutation. -/
  | errorExists
  /-- Outcome where `mkdir` succeeded and the success message was shown. -/
  | created (p : FsPath)

deriving instance DecidableEq for CreateOutcome

/-- The create-folder form handler (src lines 100-111): an empty submission is
silently skipped; an existing target is an error; otherwise `mkdir`. -/
def new_folder_form (fs : FS) (current_path : FsPath) (folder_name : Name) : CreateOutcome × FS :=
  if folder_name = [] then (CreateOutcome.ignored, fs)
  else
    let new_folder_path := pathJoin current_path folder_name
    if existsAt fs new_folder_path then (CreateOutcome.errorExists, fs)
    else
      (CreateOutcome.created (osResolve new_folder_path),
       fs ++ [⟨osResolve new_folder_path, EntryKind.dir, []⟩])

/-- The upload loop (src lines 91-98).  Each uploaded item is a name together
with `some bytes`, or `none` when saving that item raises an I/O error.  The
loop has no handler, so an exception aborts it; the `Bool` records whether the
loop ran to completion (and the success banner was reached). -/
def upload (fs : FS) (current_path : FsPath) : List (Name × Option (List Nat)) → FS × Bool
  | [] => (fs, true)
  | (_, none) :: _ => (fs, false)
  | (name, some content) :: rest =>
      upload (writeFile fs (pathJoin current_path name) content) current_path rest

/-- Model of `get_all_folders(root_dir)` (src lines 41-44): every directory strictly
beneath `root_dir` (in `rglob` order, i.e. `fs` order), with `STORAGE_DIR`
itself prepended. -/
def get_all_folders (fs : FS) (root_dir : FsPath) : List FsPath :=
  let folders :=
    (fs.filter (fun e =>
      isUnder (osResolve root_dir) e.path && decide (e.path ≠ osResolve root_dir)
        && decide (e.kind = EntryKind.dir))).map (fun e => e.path)
  STORAGE_DIR :: folders

/-- The destination choices of the move form (src lines 190-191): all folders,
minus the file's current parent (`pathlib`'s lexical `.parent`). -/
def folder_options (fs : FS) (file : FsPath) : List FsPath :=
  (get_all_folders fs STORAGE_DIR).filter (fun f => decide (f ≠ file.dropLast))

/-- Last component of a path (its leaf name). -/
def nameOf (p : FsPath) : Name := p.getLastD []

/-- Outcome of `shutil.move` (src line 195). -/
inductive MoveOutcome
  /-- the move went through; the file now lives at the recorded path. -/
  | moved (dest : FsPath)
  /-- Outcome `shutil.Error` for an existing destination, caught and shown
  by the outer `except` branch; no mutation. -/
  | errorDestExists
  /-- Outcome where `os.rename` raised (source vanished); caught and shown; no mutation. -/
  | errorRaised

deriving instance DecidableEq for MoveOutcome

/-- Model of `shutil.move(src, dst)`: when `dst` is an existing directory the real
destination is `dst/basename(src)` and an existing real destination is an
error; otherwise `os.rename(src, dst)` replaces any file at `dst`.  (The
same-file short cut and the cross-device copy fallback are not reachable on a
single filesystem with `dst` a directory distinct from `src`.) -/
def shutil_move (fs : FS) (src dst : FsPath) : MoveOutcome × FS :=
  if isDirAt fs dst then
    let real_dst := dst ++ [nameOf src]
    if existsAt fs real_dst then (MoveOutcome.errorDestExists, fs)
    else if existsAt fs src then
      (MoveOutcome.moved (osResolve real_dst), fsRename fs src real_dst)
    else (MoveOutcome.errorRaised, fs)
  else if existsAt fs src then
    (MoveOutcome.moved (osResolve dst),
     fsRename (fs.filter (fun e => decide (e.path ≠ osResolve dst))) src dst)
  else (MoveOutcome.errorRaised, fs)

/-- The children of a directory, in `iterdir` order (i.e. `fs` order). -/
def childrenOf (fs : FS) (dir : FsPath) : List Entry :=
  fs.filter (fun e => decide (e.path ≠ []) && decide (e.path.dropLast = osResolve dir))

/-- The sort comparator of src lines 150-151: compare the `str.lower()` images
of the leaf names.  Python's `sorted` is stable for this key. -/
def nameKeyLe (a b : Entry) : Bool := lexLe (pyLower (nameOf a.path)) (pyLower (nameOf b.path))

/-- The listing (src lines 148-151): `iterdir` the current directory, split
into directories and regular files, sort each by lowercased name with a stable
sort.  `none` models the exception `iterdir` raises when the directory is
gone, caught by the outer `except` branch. -/
def listing (fs : FS) (current : FsPath) : Option (List Entry × List Entry) :=
  if isDirAt fs current then
    let items := childrenOf fs current
    some ((items.filter (fun i => decide (i.kind = EntryKind.dir))).mergeSort nameKeyLe,
          (items.filter (fun i => decide (i.kind = EntryKind.file))).mergeSort nameKeyLe)
  else none

/-- Breadcrumbs (src line 130): `current.relative_to(STORAGE_DIR).parts`, pure
path arithmetic; `none` models the `ValueError` when `current` is not beneath
the root.  No filesystem access happens here. -/
def breadcrumb_parts (current : FsPath) : Option (List Name) :=
  if isUnder STORAGE_DIR current then some (current.drop STORAGE_DIR.length) else none

/-- What one redraw of the main area shows. -/
inductive RedrawOutcome
  /-- the listing rendered. -/
  | rendered (folders files : List Entry)
  /-- the outer `except` branch showed `st.error(...)`. -/
  | errorShown

deriving instance DecidableEq for RedrawOutcome

/-- One redraw of the main content area (src lines 148-208): render the
listing of `current`, or catch the exception and show an error.  The second
component is the session's `current_path` afterwards: neither branch writes
`st.session_state.current_path`. -/
def redraw (fs : FS) (current : FsPath) : RedrawOutcome × FsPath :=
  match listing fs current with
  | some (fo, fi) => (RedrawOutcome.rendered fo fi, current)
  | none => (RedrawOutcome.errorShown, current)

/-- The tie rule claimed by the spec for the listing order: case-insensitive
ascending, ties between names equal under case folding broken by the
case-sensitive order. -/
def specNameLe (a b : Name) : Bool :=
  if pyLower a = pyLower b then lexLe a b else lexLe (pyLower a) (pyLower b)

/-- Whether the create-folder form surfaced any message to the user. -/
def createShowsMessage : CreateOutcome → Bool
  | CreateOutcome.ignored => false
  | CreateOutcome.errorExists => true
  | CreateOutcome.created _ => true

/-- The writes performed by a run of successfully saved upload pairs. -/
def applyUploads (fs : FS) (current : FsPath) (pre : List (Name × List Nat)) : FS :=
  pre.foldl (fun s x => writeFile s (pathJoin current x.1) x.2) fs

theorem isUnder_refl : ∀ (p : FsPath), isUnder p p = true
  | [] => rfl
  | _ :: as => by simp [isUnder, isUnder_refl as]

theorem osResolve_append_one (p : FsPath) (s : Name)
    (h1 : s ≠ dotName) (h2 : s ≠ dotdotName) :
    osResolve (p ++ [s]) = osResolve p ++ [s] := by
  simp [osResolve, List.foldl_append, normStep, h1, h2]

theorem lexLe_total : ∀ (a b : Name), (lexLe a b || lexLe b a) = true
  | [], b => by simp [lexLe]
  | _ :: _, [] => by simp [lexLe]
  | a :: as, b :: bs => by
    by_cases h1 : a.toNat < b.toNat
    · simp [lexLe, h1]
    · by_cases h2 : b.toNat < a.toNat
      · simp [lexLe, h1, h2]
      · simp [lexLe, h1, h2, lexLe_total as bs]

theorem lexLe_trans : ∀ {a b c : Name},
    lexLe a b = true → lexLe b c = true → lexLe a c = true
  | [], _, _, _, _ => by simp [lexLe]
  | _ :: _, [], _, h1, _ => by simp [lexLe] at h1
  | _ :: _, _ :: _, [], _, h2 => by simp [lexLe] at h2
  | a :: as, b :: bs, c :: cs, h1, h2 => by
    by_cases hab : a.toNat < b.toNat <;> by_cases hbc : b.toNat < c.toNat
    · simp [lexLe, show a.toNat < c.toNat by omega]
    · by_cases hcb : c.toNat < b.toNat
      · simp [lexLe, hbc, hcb] at h2
      · simp [lexLe, show a.toNat < c.toNat by omega]
    · by_cases hba : b.toNat < a.toNat
      · simp [lexLe, hab, hba] at h1
      · simp [lexLe, show a.toNat < c.toNat by omega]
    · by_cases hba : b.toNat < a.toNat
      · simp [lexLe, hab, hba] at h1
      · by_cases hcb : c.toNat < b.toNat
        · simp [lexLe, hbc, hcb] at h2
        · have hac : ¬ a.toNat < c.toNat := by omega
          have hca : ¬ c.toNat < a.toNat := by omega
          simp [lexLe, hab, hba] at h1
          simp [lexLe, hbc, hcb] at h2
          simp [lexLe, hac, hca, lexLe_trans h1 h2]

theorem nameKeyLe_total (a b : Entry) : (nameKeyLe a b || nameKeyLe b a) = true :=
  lexLe_total _ _

theorem nameKeyLe_trans (a b c : Entry) :
    nameKeyLe a b → nameKeyLe b c → nameKeyLe a c :=
  fun h1 h2 => lexLe_trans h1 h2

/-- The file name `a.txt`. -/
def aTxt : Name := "a.txt".data

/-- The file name `b.txt`. -/
def bTxt : Name := "b.txt".data

/-- The file name `c.txt`. -/
def cTxt : Name := "c.txt".data

/-- The folder name `Docs`. -/
def docsName : Name := "Docs".data

/-- The raw rename/create input `../evil`. -/
def evilRaw : Name := "../evil".data

/-- The escaped leaf `evil`. -/
def evilName : Name := "evil".data

/-- The storage root as an entry. -/
def rootEntry : Entry := ⟨STORAGE_DIR, EntryKind.dir, []⟩

/-- Root plus a single file `a.txt`. -/
def fsC1 : FS := [rootEntry, ⟨STORAGE_DIR ++ [aTxt], EntryKind.file, [1]⟩]

/-- C1: the spec requires names containing separators or `..` to be rejected
with InvalidName/OutOfScope and no path outside StorageRoot ever mutated; the
code has no such check, and renaming `file_storage/a.txt` to `../evil`, or
submitting `../evil` to the create-folder form, resolves and mutates the path
`evil` outside the storage root. -/
theorem rename_and_mkdir_escape_storage_root :
    (handle_rename fsC1 (STORAGE_DIR ++ [aTxt]) evilRaw).1
        = RenameOutcome.renamed [evilName] ∧
    ((handle_rename fsC1 (STORAGE_DIR ++ [aTxt]) evilRaw).2.any
        (fun e => !(isUnder STORAGE_DIR e.path))) = true ∧
    (new_folder_form fsC1 STORAGE_DIR evilRaw).1 = CreateOutcome.created [evilName] ∧
    ((new_folder_form fsC1 STORAGE_DIR evilRaw).2.any
        (fun e => !(isUnder STORAGE_DIR e.path))) = true := by
  decide

/-- Root, a folder `Docs`, a file `a.txt` at root (bytes `[1]`) and another
file `a.txt` inside `Docs` (bytes `[2]`). -/
def fsC2 : FS :=
  [rootEntry,
   ⟨STORAGE_DIR ++ [docsName], EntryKind.dir, []⟩,
   ⟨STORAGE_DIR ++ [aTxt], EntryKind.file, [1]⟩,
   ⟨STORAGE_DIR ++ [docsName, aTxt], EntryKind.file, [2]⟩]

/-- C2 counterexample: moving `file_storage/a.txt` into `Docs`, which already
holds a file `a.txt`, does not succeed and does not overwrite: `shutil.move`
raises its destination-exists error, the filesystem is unchanged, the
destination still holds its old bytes and the source still exists. -/
theorem move_conflict_raises_not_overwrites :
    shutil_move fsC2 (STORAGE_DIR ++ [aTxt]) (STORAGE_DIR ++ [docsName])
      = (MoveOutcome.errorDestExists, fsC2) ∧
    readFile fsC2 (STORAGE_DIR ++ [docsName, aTxt]) = some [2] ∧
    existsAt fsC2 (STORAGE_DIR ++ [aTxt]) = true := by
  decide

/-- C2 amended: when the destination folder already contains an entry with the
file's name, the move fails with the destination-exists error and the
filesystem is unchanged. -/
theorem move_fails_when_dest_has_same_named_file (fs : FS) (src dst : FsPath)
    (hdir : isDirAt fs dst = true)
    (hex : existsAt fs (dst ++ [nameOf src]) = true) :
    shutil_move fs src dst = (MoveOutcome.errorDestExists, fs) := by
  simp [shutil_move, hdir, hex]

/-- C2 amended, witness at the concrete conflicting state. -/
theorem move_fails_when_dest_has_same_named_file_witness :
    shutil_move fsC2 (STORAGE_DIR ++ [aTxt]) (STORAGE_DIR ++ [docsName])
      = (MoveOutcome.errorDestExists, fsC2) :=
  move_fails_when_dest_has_same_named_file fsC2 (STORAGE_DIR ++ [aTxt])
    (STORAGE_DIR ++ [docsName]) (by decide) (by decide)

/-- The folder name `ghost`. -/
def ghostName : Name := "ghost".data

/-- A filesystem holding only the storage root. -/
def fsRootOnly : FS := [rootEntry]

/-- A session cursor pointing at a folder that no longer exists. -/
def staleCur : FsPath := STORAGE_DIR ++ [ghostName]

/-- C3 counterexample: with the cursor on the vanished folder
`file_storage/ghost`, the next redraw shows the caught error and leaves the
cursor unchanged — it is not reset to the storage root — and the breadcrumb
computation does not detect the missing path. -/
theorem stale_current_dir_not_reset :
    redraw fsRootOnly staleCur = (RedrawOutcome.errorShown, staleCur) ∧
    staleCur ≠ STORAGE_DIR ∧
    breadcrumb_parts staleCur = some [ghostName] := by
  decide

/-- C3 amended: whenever the cursor's directory does not exist, every redraw
shows the caught error and leaves the cursor unchanged (so the error recurs on
each redraw until the user navigates); breadcrumbs, being pure path
arithmetic, still renders for any cursor beneath the root. -/
theorem stale_current_dir_error_and_unchanged (fs : FS) (current : FsPath)
    (h : isDirAt fs current = false) :
    redraw fs current = (RedrawOutcome.errorShown, current) ∧
    (isUnder STORAGE_DIR current = true → (breadcrumb_parts current).isSome = true) := by
  constructor
  · simp [redraw, listing, h]
  · intro hu
    simp [breadcrumb_parts, hu]

/-- C3 amended, witness at the concrete stale state. -/
theorem stale_current_dir_error_and_unchanged_witness :
    redraw fsRootOnly staleCur = (RedrawOutcome.errorShown, staleCur) ∧
    (isUnder STORAGE_DIR staleCur = true → (breadcrumb_parts staleCur).isSome = true) :=
  stale_current_dir_error_and_unchanged fsRootOnly staleCur (by decide)

/-- C4: renaming to a name whose sibling already exists fails with the
already-exists error and leaves the filesystem exactly as it was: the original
node is unchanged and no new node is created. -/
theorem rename_sibling_conflict_atomic (fs : FS) (old_path : FsPath) (nm : Name)
    (hstrip : pyStrip nm = nm) (hne : nm ≠ [])
    (habs : isAbsName nm = false) (hsimple : splitName nm = [nm])
    (hex : existsAt fs (old_path.dropLast ++ [nm]) = true) :
    handle_rename fs old_path nm = (RenameOutcome.errorExists, fs) := by
  simp [handle_rename, hstrip, hne, pathJoin, habs, hsimple, hex]

/-- Root plus files `a.txt` and `b.txt`. -/
def fsTwoFiles : FS :=
  [rootEntry,
   ⟨STORAGE_DIR ++ [aTxt], EntryKind.file, [1]⟩,
   ⟨STORAGE_DIR ++ [bTxt], EntryKind.file, [2]⟩]

/-- C4, witness: renaming `a.txt` to `b.txt` next to an existing `b.txt`. -/
theorem rename_sibling_conflict_atomic_witness :
    handle_rename fsTwoFiles (STORAGE_DIR ++ [aTxt]) bTxt
      = (RenameOutcome.errorExists, fsTwoFiles) :=
  rename_sibling_conflict_atomic fsTwoFiles (STORAGE_DIR ++ [aTxt]) bTxt
    (by decide) (by decide) (by decide) (by decide) (by decide)

/-- Root plus an existing folder `Docs`. -/
def fsDocs : FS := [rootEntry, ⟨STORAGE_DIR ++ [docsName], EntryKind.dir, []⟩]

/-- C5 counterexample: submitting an empty folder name is silently ignored —
no folder is created, the state is unchanged, and no message of any kind (in
particular no InvalidName failure) is surfaced. -/
theorem create_folder_empty_name_silently_ignored :
    new_folder_form fsDocs STORAGE_DIR [] = (CreateOutcome.ignored, fsDocs) ∧
    createShowsMessage (new_folder_form fsDocs STORAGE_DIR []).1 = false := by
  decide

/-- C5 amended: an empty name is silently skipped with no mutation and no
message; an existing same-named child fails with the already-exists error and
no mutation; otherwise a new empty folder named `nm` is created under the
current directory. -/
theorem create_folder_behavior (fs : FS) (current : FsPath) (nm : Name) :
    (nm = [] → new_folder_form fs current nm = (CreateOutcome.ignored, fs)) ∧
    (nm ≠ [] → existsAt fs (pathJoin current nm) = true →
      new_folder_form fs current nm = (CreateOutcome.errorExists, fs)) ∧
    (nm ≠ [] → isAbsName nm = false → splitName nm = [nm] →
      nm ≠ dotName → nm ≠ dotdotName → osResolve current = current →
      existsAt fs (current ++ [nm]) = false →
      new_folder_form fs current nm =
        (CreateOutcome.created (current ++ [nm]),
         fs ++ [⟨current ++ [nm], EntryKind.dir, []⟩])) := by
  refine ⟨fun h => by simp [new_folder_form, h], fun h1 h2 => by simp [new_folder_form, h1, h2], ?_⟩
  intro h1 habs hsimple hdot hdotdot hnorm hfree
  have hjoin : pathJoin current nm = current ++ [nm] := by
    simp [pathJoin, habs, hsimple]
  have hres : osResolve (current ++ [nm]) = current ++ [nm] := by
    rw [osResolve_append_one current nm hdot hdotdot, hnorm]
  simp [new_folder_form, h1, hjoin, hfree, hres]

/-- C5 amended, witness: creating `Docs` again fails with the already-exists
error and no mutation; creating a fresh folder `ghost` succeeds. -/
theorem create_folder_behavior_witness :
    new_folder_form fsDocs STORAGE_DIR docsName = (CreateOutcome.errorExists, fsDocs) ∧
    new_folder_form fsDocs STORAGE_DIR ghostName =
      (CreateOutcome.created (STORAGE_DIR ++ [ghostName]),
       fsDocs ++ [⟨STORAGE_DIR ++ [ghostName], EntryKind.dir, []⟩]) :=
  ⟨(create_folder_behavior fsDocs STORAGE_DIR docsName).2.1 (by decide) (by decide),
   (create_folder_behavior fsDocs STORAGE_DIR ghostName).2.2 (by decide) (by decide)
     (by decide) (by decide) (by decide) (by decide) (by decide)⟩

/-- C8 counterexample: in the batch `a.txt` (saves), `b.txt` (save raises),
`c.txt` (would save), the failure on the second pair leaves the first pair
written but aborts the loop, so the third pair is never attempted: afterwards
`a.txt` holds its bytes, `c.txt` does not exist, and the loop did not finish. -/
theorem upload_failure_skips_remaining_pairs :
    readFile (upload fsRootOnly STORAGE_DIR
        [(aTxt, some [1]), (bTxt, none), (cTxt, some [3])]).1
      (STORAGE_DIR ++ [aTxt]) = some [1] ∧
    existsAt (upload fsRootOnly STORAGE_DIR
        [(aTxt, some [1]), (bTxt, none), (cTxt, some [3])]).1
      (STORAGE_DIR ++ [cTxt]) = false ∧
    (upload fsRootOnly STORAGE_DIR
        [(aTxt, some [1]), (bTxt, none), (cTxt, some [3])]).2 = false := by
  decide

/-- C8 amended: a failure while saving pair `k` does not roll back pairs
`1..k-1` — their writes remain applied — but it aborts the loop, so pairs
`k+1..n` are not attempted (the final state is exactly the writes of the
successful run before the failure, and the loop does not complete). -/
theorem upload_failure_keeps_earlier_aborts_rest (fs : FS) (current : FsPath)
    (pre : List (Name × List Nat)) (nm : Name)
    (post : List (Name × Option (List Nat))) :
    upload fs current (pre.map (fun x => (x.1, some x.2)) ++ (nm, none) :: post)
      = (applyUploads fs current pre, false) := by
  induction pre generalizing fs with
  | nil => simp [upload, applyUploads]
  | cons a tl ih => simpa [upload, applyUploads] using ih (writeFile fs (pathJoin current a.1) a.2)

/-- C9: a successful rename uses the stripped name: with surrounding
whitespace in `nm`, the node ends up at `parent/strip(nm)` — the stripped
leaf, not `nm` verbatim — and an entry exists at that path afterwards. -/
theorem rename_strips_whitespace (fs : FS) (old_path : FsPath) (nm : Name)
    (hne : pyStrip nm ≠ [])
    (habs : isAbsName (pyStrip nm) = false)
    (hsimple : splitName (pyStrip nm) = [pyStrip nm])
    (hdot : pyStrip nm ≠ dotName) (hdotdot : pyStrip nm ≠ dotdotName)
    (hnorm : osResolve old_path.dropLast = old_path.dropLast)
    (hfree : existsAt fs (old_path.dropLast ++ [pyStrip nm]) = false)
    (hold : existsAt fs old_path = true) :
    (handle_rename fs old_path nm).1
      = RenameOutcome.renamed (old_path.dropLast ++ [pyStrip nm]) ∧
    existsAt (handle_rename fs old_path nm).2 (old_path.dropLast ++ [pyStrip nm]) = true := by
  have hjoin : pathJoin old_path.dropLast (pyStrip nm) = old_path.dropLast ++ [pyStrip nm] := by
    simp [pathJoin, habs, hsimple]
  have hres : osResolve (old_path.dropLast ++ [pyStrip nm])
      = old_path.dropLast ++ [pyStrip nm] := by
    rw [osResolve_append_one _ _ hdot hdotdot, hnorm]
  have hr : handle_rename fs old_path nm
      = (RenameOutcome.renamed (old_path.dropLast ++ [pyStrip nm]),
         fsRename fs old_path (old_path.dropLast ++ [pyStrip nm])) := by
    simp [handle_rename, hne, hjoin, hfree, hold, hres]
  refine ⟨by rw [hr], ?_⟩
  rw [hr]
  obtain ⟨e, hmem, hpath⟩ : ∃ e, e ∈ fs ∧ e.path = osResolve old_path := by
    simpa [existsAt, List.any_eq_true] using hold
  have himg :
      (⟨osResolve (old_path.dropLast ++ [pyStrip nm]) ++ e.path.drop (osResolve old_path).length,
        e.kind, e.content⟩ : Entry) ∈ fsRename fs old_path (old_path.dropLast ++ [pyStrip nm]) := by
    simp only [fsRename]
    have := List.mem_map_of_mem
      (fun e : Entry =>
        if isUnder (osResolve old_path) e.path then
          (⟨osResolve (old_path.dropLast ++ [pyStrip nm]) ++ e.path.drop (osResolve old_path).length,
            e.kind, e.content⟩ : Entry)
        else e) hmem
    simpa [hpath, isUnder_refl] using this
  have hdropped : e.path.drop (osResolve old_path).length = [] := by
    rw [hpath]
    exact List.drop_length _
  rw [existsAt, List.any_eq_true]
  refine ⟨_, himg, ?_⟩
  simp [hdropped, hres]

/-- C7: the move-destination choices are exactly the recursive folder list of
the storage root minus the file's current parent; the recursive folder list
always starts with the storage root itself, and its members are the root plus
precisely the directories strictly beneath the enumeration root. -/
theorem move_destinations_characterization (fs : FS) (file root_dir : FsPath) :
    folder_options fs file
      = (get_all_folders fs STORAGE_DIR).filter (fun f => decide (f ≠ file.dropLast)) ∧
    (get_all_folders fs root_dir).head? = some STORAGE_DIR ∧
    (∀ p, p ∈ get_all_folders fs root_dir ↔
      (p = STORAGE_DIR ∨ ∃ e, e ∈ fs ∧ e.path = p ∧ e.kind = EntryKind.dir ∧
        isUnder (osResolve root_dir) p = true ∧ p ≠ osResolve root_dir)) ∧
    (∀ p, p ∈ folder_options fs file ↔
      (p ∈ get_all_folders fs STORAGE_DIR ∧ p ≠ file.dropLast)) := by
  refine ⟨rfl, rfl, ?_, ?_⟩
  · intro p
    constructor
    · intro hp
      rcases List.mem_cons.mp hp with h | h
      · exact Or.inl h
      · rcases List.mem_map.mp h with ⟨e, he, hpe⟩
        rcases List.mem_filter.mp he with ⟨hef, hq⟩
        simp only [Bool.and_eq_true, decide_eq_true_eq] at hq
        exact Or.inr ⟨e, hef, hpe, hq.2, hpe ▸ hq.1.1, hpe ▸ hq.1.2⟩
    · rintro (h | ⟨e, hef, hpe, hkind, hund, hne⟩)
      · exact h ▸ List.mem_cons_self _ _
      · refine List.mem_cons.mpr (Or.inr (List.mem_map.mpr ⟨e, ?_, hpe⟩))
        refine List.mem_filter.mpr ⟨hef, ?_⟩
        simp only [Bool.and_eq_true, decide_eq_true_eq]
        exact ⟨⟨hpe ▸ hund, hpe ▸ hne⟩, hkind⟩
  · intro p
    rw [folder_options]
    simp [List.mem_filter]

/-- The file name `b`. -/
def bLow : Name := "b".data

/-- The file name `B`. -/
def bUp : Name := "B".data

/-- The file `file_storage/b`. -/
def entB : Entry := ⟨STORAGE_DIR ++ [bLow], EntryKind.file, []⟩

/-- The file `file_storage/B`. -/
def entBU : Entry := ⟨STORAGE_DIR ++ [bUp], EntryKind.file, []⟩

/-- Root plus the files `b` and `B`, enumerated in that order. -/
def fsC6 : FS := [rootEntry, entB, entBU]

/-- Evaluation of the listing on `fsC6`. -/
theorem listing_fsC6_eval : listing fsC6 STORAGE_DIR = some ([], [entB, entBU]) := by
  have h1 : isDirAt fsC6 STORAGE_DIR = true := by decide
  have h2 : childrenOf fsC6 STORAGE_DIR = [entB, entBU] := by decide
  have h3 : ([entB, entBU].filter (fun i => decide (i.kind = EntryKind.dir))) = [] := by decide
  have h4 : ([entB, entBU].filter (fun i => decide (i.kind = EntryKind.file)))
      = [entB, entBU] := by decide
  have h5 : nameKeyLe entB entBU = true := by decide
  rw [listing, if_pos h1, h2]
  simp only [h3, h4]
  simp [List.mergeSort, List.merge, h5]

/-- C6 counterexample: with `iterdir` enumerating `b` before `B` (two names
equal under case folding), the listing returns the files as `[b, B]` — the
stable sort keeps enumeration order for ties — which violates the claimed
case-sensitive tie-breaking, under which `B` must precede `b`. -/
theorem listing_tie_order_not_case_sensitive :
    listing fsC6 STORAGE_DIR = some ([], [entB, entBU]) ∧
    ¬ ([entB, entBU].Pairwise (fun a b => specNameLe (nameOf a.path) (nameOf b.path) = true)) :=
  ⟨listing_fsC6_eval, by decide⟩

/-- C6 amended: both listing sequences are sorted by lowercased name
(case-insensitive ascending) and are permutations of the directory
respectively file children; ties between names equal under case folding keep
the directory enumeration order (the sort is stable), not the case-sensitive
order. -/
theorem listing_sorted_case_insensitive_stable (fs : FS) (current : FsPath)
    (fo fi : List Entry) (h : listing fs current = some (fo, fi)) :
    fo.Pairwise (fun a b => nameKeyLe a b = true) ∧
    fi.Pairwise (fun a b => nameKeyLe a b = true) ∧
    List.Perm fo ((childrenOf fs current).filter (fun i => decide (i.kind = EntryKind.dir))) ∧
    List.Perm fi ((childrenOf fs current).filter (fun i => decide (i.kind = EntryKind.file))) ∧
    (∀ a b, nameKeyLe a b = true →
      List.Sublist [a, b]
        ((childrenOf fs current).filter (fun i => decide (i.kind = EntryKind.dir))) →
      List.Sublist [a, b] fo) ∧
    (∀ a b, nameKeyLe a b = true →
      List.Sublist [a, b]
        ((childrenOf fs current).filter (fun i => decide (i.kind = EntryKind.file))) →
      List.Sublist [a, b] fi) := by
  rw [listing] at h
  by_cases hd : isDirAt fs current = true
  · rw [if_pos hd] at h
    simp only [Option.some.injEq, Prod.mk.injEq] at h
    obtain ⟨h1, h2⟩ := h
    subst h1
    subst h2
    refine ⟨List.sorted_mergeSort nameKeyLe_trans nameKeyLe_total _,
            List.sorted_mergeSort nameKeyLe_trans nameKeyLe_total _,
            List.mergeSort_perm _ _, List.mergeSort_perm _ _, ?_, ?_⟩
    · exact fun a b hab hsub =>
        List.pair_sublist_mergeSort nameKeyLe_trans nameKeyLe_total hab hsub
    · exact fun a b hab hsub =>
        List.pair_sublist_mergeSort nameKeyLe_trans nameKeyLe_total hab hsub
  · rw [if_neg hd] at h
    cases h

/-- C6 amended, witness: on `fsC6` the file sequence `[b, B]` is sorted by
lowercased name and is a permutation of the file children. -/
theorem listing_sorted_case_insensitive_stable_witness :
    [entB, entBU].Pairwise (fun a b => nameKeyLe a b = true) ∧
    List.Perm [entB, entBU]
      ((childrenOf fsC6 STORAGE_DIR).filter (fun i => decide (i.kind = EntryKind.file))) :=
  ⟨(listing_sorted_case_insensitive_stable fsC6 STORAGE_DIR [] [entB, entBU]
      listing_fsC6_eval).2.1,
   (listing_sorted_case_insensitive_stable fsC6 STORAGE_DIR [] [entB, entBU]
      listing_fsC6_eval).2.2.2.1⟩

/-- C10: the two listing sequences partition the children by kind: an entry is
in the folder sequence iff it is a child and a directory, in the file sequence
iff it is a child and a regular file; the sequences are disjoint, and an entry
of any other kind (e.g. a broken symlink) appears in neither. -/
theorem listing_partitions_by_kind (fs : FS) (current : FsPath) (fo fi : List Entry)
    (h : listing fs current = some (fo, fi)) :
    (∀ e, e ∈ fo ↔ (e ∈ childrenOf fs current ∧ e.kind = EntryKind.dir)) ∧
    (∀ e, e ∈ fi ↔ (e ∈ childrenOf fs current ∧ e.kind = EntryKind.file)) ∧
    (∀ e, ¬ (e ∈ fo ∧ e ∈ fi)) ∧
    (∀ e, e.kind = EntryKind.other → ¬ e ∈ fo ∧ ¬ e ∈ fi) := by
  rw [listing] at h
  by_cases hd : isDirAt fs current = true
  · rw [if_pos hd] at h
    simp only [Option.some.injEq, Prod.mk.injEq] at h
    obtain ⟨h1, h2⟩ := h
    subst h1
    subst h2
    have hfo : ∀ e : Entry,
        e ∈ ((childrenOf fs current).filter
            (fun i => decide (i.kind = EntryKind.dir))).mergeSort nameKeyLe
          ↔ (e ∈ childrenOf fs current ∧ e.kind = EntryKind.dir) := by
      intro e
      rw [List.mem_mergeSort, List.mem_filter]
      simp
    have hfi : ∀ e : Entry,
        e ∈ ((childrenOf fs current).filter
            (fun i => decide (i.kind = EntryKind.file))).mergeSort nameKeyLe
          ↔ (e ∈ childrenOf fs current ∧ e.kind = EntryKind.file) := by
      intro e
      rw [List.mem_mergeSort, List.mem_filter]
      simp
    refine ⟨hfo, hfi, ?_, ?_⟩
    · rintro e ⟨hin1, hin2⟩
      have k1 := ((hfo e).mp hin1).2
      have k2 := ((hfi e).mp hin2).2
      rw [k1] at k2
      cases k2
    · intro e hk
      constructor
      · intro hin
        have := ((hfo e).mp hin).2
        rw [hk] at this
        cases this
      · intro hin
        have := ((hfi e).mp hin).2
        rw [hk] at this
        cases this
  · rw [if_neg hd] at h
    cases h

/-- The folder name `d`. -/
def dName : Name := "d".data

/-- The name `link`. -/
def linkName : Name := "link".data

/-- The folder `file_storage/d`. -/
def entD : Entry := ⟨STORAGE_DIR ++ [dName], EntryKind.dir, []⟩

/-- The file `file_storage/a.txt` with bytes `[7]`. -/
def entA : Entry := ⟨STORAGE_DIR ++ [aTxt], EntryKind.file, [7]⟩

/-- A broken symlink `file_storage/link`: neither directory nor regular file. -/
def entLink : Entry := ⟨STORAGE_DIR ++ [linkName], EntryKind.other, []⟩

/-- Root plus a folder, a file and a broken symlink. -/
def fsC10 : FS := [rootEntry, entD, entA, entLink]

/-- Evaluation of the listing on `fsC10`: the broken symlink is in neither
sequence. -/
theorem listing_fsC10_eval : listing fsC10 STORAGE_DIR = some ([entD], [entA]) := by
  have h1 : isDirAt fsC10 STORAGE_DIR = true := by decide
  have h2 : childrenOf fsC10 STORAGE_DIR = [entD, entA, entLink] := by decide
  have h3 : ([entD, entA, entLink].filter (fun i => decide (i.kind = EntryKind.dir)))
      = [entD] := by decide
  have h4 : ([entD, entA, entLink].filter (fun i => decide (i.kind = EntryKind.file)))
      = [entA] := by decide
  rw [listing, if_pos h1, h2]
  simp only [h3, h4]
  simp [List.mergeSort]

/-- C10, witness: on `fsC10` the broken symlink appears in neither sequence. -/
theorem listing_partitions_by_kind_witness :
    ¬ entLink ∈ [entD] ∧ ¬ entLink ∈ [entA] :=
  (listing_partitions_by_kind fsC10 STORAGE_DIR [entD] [entA] listing_fsC10_eval).2.2.2
    entLink rfl

/-- C7, witness: on `fsC2`, the folder list starts with the root, and `Docs`
is offered as a destination for `a.txt` exactly because it is a listed folder
different from the file's parent. -/
theorem move_destinations_characterization_witness :
    (get_all_folders fsC2 STORAGE_DIR).head? = some STORAGE_DIR ∧
    (STORAGE_DIR ++ [docsName] ∈ folder_options fsC2 (STORAGE_DIR ++ [aTxt]) ↔
      (STORAGE_DIR ++ [docsName] ∈ get_all_folders fsC2 STORAGE_DIR ∧
        STORAGE_DIR ++ [docsName] ≠ (STORAGE_DIR ++ [aTxt]).dropLast)) :=
  ⟨(move_destinations_characterization fsC2 (STORAGE_DIR ++ [aTxt]) STORAGE_DIR).2.1,
   (move_destinations_characterization fsC2 (STORAGE_DIR ++ [aTxt]) STORAGE_DIR).2.2.2
     (STORAGE_DIR ++ [docsName])⟩

/-- The raw rename input `  c.txt  ` with surrounding whitespace. -/
def wsCTxt : Name := "  c.txt  ".data

/-- C9, witness: renaming `a.txt` to `  c.txt  ` lands on the stripped leaf
`c.txt`, and an entry exists there afterwards. -/
theorem rename_strips_whitespace_witness :
    (handle_rename fsTwoFiles (STORAGE_DIR ++ [aTxt]) wsCTxt).1
      = RenameOutcome.renamed ((STORAGE_DIR ++ [aTxt]).dropLast ++ [pyStrip wsCTxt]) ∧
    existsAt (handle_rename fsTwoFiles (STORAGE_DIR ++ [aTxt]) wsCTxt).2
      ((STORAGE_DIR ++ [aTxt]).dropLast ++ [pyStrip wsCTxt]) = true :=
  rename_strips_whitespace fsTwoFiles (STORAGE_DIR ++ [aTxt]) wsCTxt
    (by decide) (by decide) (by decide) (by decide) (by decide) (by decide)
    (by decide) (by decide)
